import Mathlib

/-!
Shallow embedding of the Xaven SDK request-orchestration core
(`src/packages/core/xaven-context.ts`, `src/packages/core/xaven-factory.ts`,
`src/packages/lib/xaven-ai-engine.ts`, `src/packages/lib/xaven-purchase-optimizer.ts`)
and proofs about its specified behaviour.
-/

set_option maxHeartbeats 1000000
set_option linter.unusedVariables false

/-- Model of `XavenContextData` from `xaven-context.ts`: the per-request context. -/
structure XavenContextData where
  correlationId : String
  userId : Option String
deriving DecidableEq, Repr

/-- An Express header value: `req.headers[k]` is `string | string[] | undefined`;
we model present values; absence is `Option.none` at use sites. -/
inductive HeaderValue where
  | str (s : String) : HeaderValue
  | strs (l : List String) : HeaderValue
deriving DecidableEq, Repr

/-- Hex digit (either case). -/
def isHexChar (c : Char) : Bool :=
  "0123456789abcdefABCDEF".data.contains c

/-- Character check at position `i` of a candidate UUID v4 string:
dashes at 8/13/18/23, version nibble `4` at position 14, variant nibble
in `{8,9,a,b}` (either case) at position 19, hex elsewhere. -/
def uuidPosCheck (cs : List Char) (i : Nat) : Bool :=
  let c := cs.getD i ' '
  if i = 8 || i = 13 || i = 18 || i = 23 then c = '-'
  else if i = 14 then c = '4'
  else if i = 19 then c = '8' || c = '9' || c = 'a' || c = 'b' || c = 'A' || c = 'B'
  else isHexChar c

/-- UUID v4 format: 36 chars, 8-4-4-4-12 hex groups, version nibble 4,
variant nibble in {8,9,a,b}. -/
def isUuidV4 (s : String) : Bool :=
  s.length = 36 && (List.range 36).all (uuidPosCheck s.data)

/-- JavaScript `String.prototype.trim`: surrounding whitespace removed from
both ends. -/
def jsTrim (s : String) : String :=
  String.mk (((s.data.dropWhile Char.isWhitespace).reverse.dropWhile
      Char.isWhitespace).reverse)

/-- The correlation-id branch of `xavenContextMiddleware` (`xaven-context.ts`
lines 33-41): a string header, non-blank after trimming, is used trimmed;
anything else falls back to the value produced by `randomUUID()`
(passed here as `freshUuid`). -/
def seedCorrelationId (header : Option HeaderValue) (freshUuid : String) : String :=
  match header with
  | some (HeaderValue.str s) =>
      if 0 < (jsTrim s).length then jsTrim s else freshUuid
  | _ => freshUuid

/-- Model of `(req as any).userId || undefined` (`xaven-context.ts` line 45): a falsy
user id (absent or the empty string) becomes absent. -/
def seedUserId (reqUserId : Option String) : Option String :=
  match reqUserId with
  | some s => if s = "" then none else some s
  | none => none

/-- The context object built by `xavenContextMiddleware` and passed to
`xavenContextStore.run`. -/
def seedContext (header : Option HeaderValue) (reqUserId : Option String)
    (freshUuid : String) : XavenContextData :=
  { correlationId := seedCorrelationId header freshUuid
    userId := seedUserId reqUserId }

/-- Model of `getXavenContext` (`xaven-context.ts` lines 62-64): returns
`xavenContextStore.getStore()`, i.e. the ambient store value, which is
`undefined` outside any `run` scope. -/
def getXavenContext (store : Option XavenContextData) : Option XavenContextData :=
  store

/-- Model of `getCorrelationId` (`xaven-context.ts` lines 69-71):
`xavenContextStore.getStore()?.correlationId`. -/
def getCorrelationId (store : Option XavenContextData) : Option String :=
  Option.map (fun c => c.correlationId) store

/-- Model of `getUserId` (`xaven-context.ts` lines 76-78):
`xavenContextStore.getStore()?.userId` (the field itself is optional). -/
def getUserId (store : Option XavenContextData) : Option String :=
  Option.bind store (fun c => c.userId)

/-! ## Event-loop model of `AsyncLocalStorage`

`xavenContextStore` is a Node `AsyncLocalStorage`. Its contract (relied on by
the middleware's `run(contextData, () => next())`): every callback scheduled
while a store value is active — timers, deferred continuations — observes that
same store value when it later runs, and code outside any scope observes
`undefined`. We model the single-threaded event loop explicitly: each pending
task carries the store snapshot captured when it was scheduled, and a step
interleaves tasks in any order. -/

/-- A request-scoped async program: finish, read the ambient store
(`getStore()`), or schedule a deferred callback (e.g. `setTimeout`) and
continue. -/
inductive AsyncProg where
  | done : AsyncProg
  | readCtx : (Option XavenContextData → AsyncProg) → AsyncProg
  | schedule : AsyncProg → AsyncProg → AsyncProg

/-- A pending event-loop task: which logical request it belongs to, the
`AsyncLocalStorage` snapshot captured at scheduling time, and its remaining
program. -/
structure AsyncTask where
  owner : Nat
  store : Option XavenContextData
  prog : AsyncProg

/-- Event-loop state: pending tasks plus the log of every store value
observed via `getStore()`, tagged with the observing request. -/
structure LoopState where
  tasks : List AsyncTask
  observations : List (Nat × Option XavenContextData)

/-- One event-loop step running task `i` (a no-op if `i` is out of range):
`done` retires the task; `readCtx` logs the task's captured store and
continues with it; `schedule` enqueues the callback carrying the scheduler's
current store — exactly `AsyncLocalStorage` propagation. -/
def stepAt (i : Nat) (s : LoopState) : LoopState :=
  match s.tasks.get? i with
  | none => s
  | some t =>
    match t.prog with
    | AsyncProg.done => { s with tasks := s.tasks.eraseIdx i }
    | AsyncProg.readCtx k =>
        { tasks := s.tasks.set i { t with prog := k t.store }
          observations := s.observations ++ [(t.owner, t.store)] }
    | AsyncProg.schedule cb rest =>
        { s with tasks :=
            (s.tasks.set i { t with prog := rest }) ++
              [{ owner := t.owner, store := t.store, prog := cb }] }

/-- Run the event loop under an arbitrary interleaving `sched` of task
indices. -/
def runSched (sched : List Nat) (s : LoopState) : LoopState :=
  match sched with
  | [] => s
  | i :: rest => runSched rest (stepAt i s)

/-- Store-integrity invariant: every pending task carries exactly its own
request's seeded context, and every logged observation saw exactly the
observer's own seeded context. -/
def CtxInv (ctxOf : Nat → Option XavenContextData) (s : LoopState) : Prop :=
  (∀ t ∈ s.tasks, t.store = ctxOf t.owner) ∧
  (∀ p ∈ s.observations, p.2 = ctxOf p.1)

/-! ## Cache-aside store (`xaven-factory.ts`) -/

/-- A JSON-ish JavaScript value, enough to express truthiness of cached
response data. -/
inductive JsValue where
  | vNull : JsValue
  | vBool (b : Bool) : JsValue
  | vNum (n : Int) : JsValue
  | vStr (s : String) : JsValue
  | vObj (tag : String) : JsValue
deriving DecidableEq, Repr

/-- JavaScript truthiness of a value (`if (cached)`): `null`, `false`, `0`
and `""` are falsy; objects are truthy. -/
def truthy (v : JsValue) : Bool :=
  match v with
  | JsValue.vNull => false
  | JsValue.vBool b => b
  | JsValue.vNum n => n ≠ 0
  | JsValue.vStr s => s ≠ ""
  | JsValue.vObj _ => true

/-- The `NodeCache` contents: key, stored value, absolute expiry instant
(`stdTTL` seconds after the write). -/
structure CacheState where
  entries : List (String × JsValue × Nat)
deriving DecidableEq, Repr

/-- Model of `cache.get(url)`: the stored value if present and not yet expired
(an entry is absent once `now ≥ expiresAt`), else `undefined`. -/
def cacheGet (st : CacheState) (now : Nat) (k : String) : Option JsValue :=
  match st.entries.find? (fun e => e.1 = k) with
  | some e => if now < e.2.2 then some e.2.1 else none
  | none => none

/-- Model of `cache.set(url, data)`: store `v` under `k` with expiry `now + ttl`,
replacing any previous entry for `k`. -/
def cacheSet (st : CacheState) (now ttl : Nat) (k : String) (v : JsValue) :
    CacheState :=
  { entries := (k, v, now + ttl) :: st.entries.filter (fun e => e.1 ≠ k) }

/-- Outcome of one `fetchWithCache` call: the returned/raised result, the
cache state afterwards, whether the loader (`axios.get`) was invoked, and
whether a concurrency-gate slot was requested (`limit(...)`). -/
structure FetchResult where
  result : Except String JsValue
  state : CacheState
  loaderInvoked : Bool
  gateUsed : Bool
deriving Repr

/-- The miss path of `fetchWithCache` (`xaven-factory.ts` lines 81-87): go
through `limit`, perform the remote call, cache the response data on success,
propagate the error otherwise. -/
def fetchMissPath (st : CacheState) (now ttl : Nat) (url : String)
    (loader : Except String JsValue) : FetchResult :=
  match loader with
  | Except.ok v =>
      { result := Except.ok v, state := cacheSet st now ttl url v
        loaderInvoked := true, gateUsed := true }
  | Except.error e =>
      { result := Except.error e, state := st
        loaderInvoked := true, gateUsed := true }

/-- Model of `fetchWithCache` (`xaven-factory.ts` lines 72-88). Note the source's
`if (cached)` is a JavaScript truthiness test on the value returned by
`cache.get`, so both an absent entry and a present-but-falsy value take the
miss path. `loader` is the (deterministic, for this one call) outcome of
`axios.get(url)`. -/
def fetchWithCache (st : CacheState) (now ttl : Nat) (url : String)
    (loader : Except String JsValue) : FetchResult :=
  match cacheGet st now url with
  | some v =>
      if truthy v then
        { result := Except.ok v, state := st
          loaderInvoked := false, gateUsed := false }
      else fetchMissPath st now ttl url loader
  | none => fetchMissPath st now ttl url loader

/-- Whether a `fetchWithCache` call at `now` takes the miss path
(no entry, expired entry, or falsy cached value). -/
def cacheMiss (st : CacheState) (now : Nat) (url : String) : Bool :=
  match cacheGet st now url with
  | some v => !truthy v
  | none => true

/-! ## Concurrency gate

`xaven-factory.ts` line 30 builds `const limit = pLimit(3)`: a FIFO counting
gate from the `p-limit` package (a dependency, not part of this repository).
Modelled from the spec: §4.2's contract — run at most N tasks at once, queue
excess arrivals in FIFO order, and on each settle release the slot exactly
once, granting it to the longest-waiting queued task. -/

/-- Gate state: the configured limit, the ids of currently running tasks, the
FIFO wait queue, plus histories (every id ever enqueued, every id started
from the queue, every id settled) used to state FIFO fairness and
completion. -/
structure GateState where
  limit : Nat
  running : List Nat
  queue : List Nat
  enqueuedHist : List Nat
  startedFromQueue : List Nat
  settled : List Nat
deriving DecidableEq, Repr

/-- Environment events driving the gate: a caller submits a task, or a
running task settles (success or failure — the gate does not distinguish). -/
inductive GateEvent where
  | submit (t : Nat) : GateEvent
  | finish (t : Nat) : GateEvent
deriving DecidableEq, Repr

/-- One gate transition. `submit`: start immediately if a slot is free,
otherwise append to the FIFO queue. `finish` of a running task: free its
slot and immediately start the queue head, if any. -/
def gateStep (g : GateState) (e : GateEvent) : GateState :=
  match e with
  | GateEvent.submit t =>
      if g.running.length < g.limit then { g with running := g.running ++ [t] }
      else { g with queue := g.queue ++ [t], enqueuedHist := g.enqueuedHist ++ [t] }
  | GateEvent.finish t =>
      if g.running.contains t then
        match g.queue with
        | [] =>
            { g with running := g.running.erase t, settled := g.settled ++ [t] }
        | q :: rest =>
            { g with running := g.running.erase t ++ [q], queue := rest
                     startedFromQueue := g.startedFromQueue ++ [q]
                     settled := g.settled ++ [t] }
      else g

/-- Fold a whole event sequence through the gate. -/
def gateRun (g : GateState) (evs : List GateEvent) : GateState :=
  evs.foldl gateStep g

/-- A fresh gate with limit `n` (for the factory, `pLimit(3)`). -/
def gateInit (n : Nat) : GateState :=
  { limit := n, running := [], queue := [], enqueuedHist := []
    startedFromQueue := [], settled := [] }

/-- The spec's ten-task scenario: ten tasks submitted at once, then each
settles in turn. -/
def gateTenEvents : List GateEvent :=
  ((List.range 10).map (fun i => GateEvent.submit (i + 1))) ++
    ((List.range 10).map (fun i => GateEvent.finish (i + 1)))

/-- Gate safety invariant: never more running tasks than the limit, and the
queued-start history followed by the current queue is exactly the enqueue
history in order (FIFO: queued tasks are started in arrival order). -/
def GateInv (g : GateState) : Prop :=
  g.running.length ≤ g.limit ∧
  g.startedFromQueue ++ g.queue = g.enqueuedHist

/-! ## Retrying remote caller (`xaven-ai-engine.ts`, `xaven-purchase-optimizer.ts`) -/

/-- Model of the `${lastError?.message}` interpolation: `undefined` when no error was
recorded. -/
def lastErrorMessage (last : Option String) : String :=
  match last with
  | some m => m
  | none => "undefined"

/-- The terminal error message thrown by `XavenAiEngine.parseUserQuery`
after exhausting retries (`xaven-ai-engine.ts` lines 517-521). -/
def aiTerminalMsg (n : Nat) (last : Option String) : String :=
  "[XavenAiEngine] parseUserQuery failed after " ++ toString n ++
    " attempts. Last error: " ++ lastErrorMessage last

/-- The terminal error message thrown by
`XavenPurchaseOptimizer.optimizePurchase` after exhausting retries
(`xaven-purchase-optimizer.ts` lines 128-131). -/
def optTerminalMsg (n : Nat) (last : Option String) : String :=
  "[XavenPurchaseOptimizer] optimizePurchase failed after " ++ toString n ++
    " attempts. Last error: " ++ lastErrorMessage last

/-- The shared retry loop shape of both domain clients:
`while (attempts < retryCount) { try { return await post(...) } catch
{ attempts++; lastError = err } } throw terminal(retryCount, lastError)`.
`callable i` is the outcome of the `i`-th `client.post` call (0-indexed);
the second component of the result counts how many times the callable was
invoked. -/
def retryLoopGo {α : Type} (callable : Nat → Except String α) (retryCount : Nat)
    (mkTerminal : Nat → Option String → String) (attempts : Nat)
    (lastError : Option String) (calls : Nat) : Except String α × Nat :=
  if h : attempts < retryCount then
    match callable attempts with
    | Except.ok v => (Except.ok v, calls + 1)
    | Except.error e =>
        retryLoopGo callable retryCount mkTerminal (attempts + 1) (some e) (calls + 1)
  else (Except.error (mkTerminal retryCount lastError), calls)
termination_by retryCount - attempts
decreasing_by omega

/-- Model of `XavenAiEngineConfig` (defaults from the constructor merge). -/
structure XavenAiEngineConfig where
  endpointUrl : String
  requestTimeoutMs : Nat
  defaultLanguage : String
  retryCount : Nat
deriving DecidableEq, Repr

/-- Model of `XavenPurchaseOptimizerConfig` (defaults from the constructor merge). -/
structure XavenPurchaseOptimizerConfig where
  endpointUrl : String
  requestTimeoutMs : Nat
  concurrencyOverride : Option Nat
  enableCacheInvalidation : Bool
  retryCount : Nat
deriving DecidableEq, Repr

/-- Model of `XavenAiParsedResult` (`xaven-ai-engine.ts`). -/
structure XavenAiParsedResult where
  category : String
  brand : Option String
  maxBudget : Option Nat
  shippingUrgency : Option String
deriving DecidableEq, Repr

/-- An offer from the purchase-optimization backend. -/
structure XavenOptimizedOffer where
  partnerName : String
  productName : String
  price : Nat
  totalCost : Nat
  link : String
deriving DecidableEq, Repr

/-- Model of `XavenOptimizationResult` (`xaven-purchase-optimizer.ts`). -/
structure XavenOptimizationResult where
  bestOffer : Option XavenOptimizedOffer
  offers : List XavenOptimizedOffer
deriving DecidableEq, Repr

/-- The retry loop of `XavenAiEngine.parseUserQuery`
(`xaven-ai-engine.ts` lines 494-521), instrumented with a call counter. -/
def parseUserQueryRun (cfg : XavenAiEngineConfig)
    (callable : Nat → Except String XavenAiParsedResult) :
    Except String XavenAiParsedResult × Nat :=
  retryLoopGo callable cfg.retryCount aiTerminalMsg 0 none 0

/-- The retry loop of `XavenPurchaseOptimizer.optimizePurchase`
(`xaven-purchase-optimizer.ts` lines 98-131), instrumented with a call
counter. -/
def optimizePurchaseRun (cfg : XavenPurchaseOptimizerConfig)
    (callable : Nat → Except String XavenOptimizationResult) :
    Except String XavenOptimizationResult × Nat :=
  retryLoopGo callable cfg.retryCount optTerminalMsg 0 none 0

/-- Model of `preferredLanguage || this.state.config.defaultLanguage`
(`xaven-ai-engine.ts` line 492): a falsy provided language (absent or the
empty string) falls back to the configured default. -/
def jsOrDefault (provided : Option String) (deflt : String) : String :=
  match provided with
  | some s => if s = "" then deflt else s
  | none => deflt

/-- The payload `parseUserQuery` posts (`xaven-ai-engine.ts` lines 499-503). -/
structure AiParsePayload where
  correlationId : String
  userQuery : String
  language : String
deriving DecidableEq, Repr

/-- The payload built by `parseUserQuery` (`xaven-ai-engine.ts` lines
491-503). `ambientCtx` is the Context Store's active context at call time —
available to the method, but the source never reads the store: it always
stamps the freshly generated `uuidv4()` value (`freshUuid`). -/
def mkAiParsePayload (cfg : XavenAiEngineConfig) (freshUuid : String)
    (ambientCtx : Option XavenContextData) (userQuery : String)
    (preferredLanguage : Option String) : AiParsePayload :=
  { correlationId := freshUuid
    userQuery := userQuery
    language := jsOrDefault preferredLanguage cfg.defaultLanguage }

/-- The inner `payload` object posted by `optimizePurchase`. -/
structure PurchasePayloadInner where
  aiParsed : XavenAiParsedResult
  concurrency : Option Nat
  cacheInvalidation : Bool
deriving DecidableEq, Repr

/-- The payload `optimizePurchase` posts
(`xaven-purchase-optimizer.ts` lines 103-111). -/
structure PurchasePayload where
  correlationId : String
  userId : Option String
  payload : PurchasePayloadInner
deriving DecidableEq, Repr

/-- The payload built by `optimizePurchase` (`xaven-purchase-optimizer.ts`
lines 97-111). As with the AI engine, `ambientCtx` is the active Context
Store value, which the source never consults: `correlationId` is always the
fresh `uuidv4()` value. -/
def mkOptimizePayload (cfg : XavenPurchaseOptimizerConfig) (freshUuid : String)
    (ambientCtx : Option XavenContextData) (aiParsed : XavenAiParsedResult)
    (userId : Option String) : PurchasePayload :=
  { correlationId := freshUuid
    userId := userId
    payload :=
      { aiParsed := aiParsed
        concurrency := cfg.concurrencyOverride
        cacheInvalidation := cfg.enableCacheInvalidation } }

/-- Substring containment, stated over the character data. -/
def strContains (s sub : String) : Prop :=
  ∃ p q, s.data = p ++ sub.data ++ q

/-! ## Theorems -/

/-- C8: `getXavenContext` is total and returns an explicit absent value
outside any `run` scope, and the derived accessors `getCorrelationId` and
`getUserId` return the corresponding field of the active context, or absent,
also totally (the embedding returns plain `Option` values — no error case
exists). -/
theorem c8_getters_never_throw :
    getXavenContext none = none ∧
    (∀ c : XavenContextData, getXavenContext (some c) = some c) ∧
    (∀ c : XavenContextData,
      getCorrelationId (some c) = some c.correlationId ∧
      getUserId (some c) = c.userId) ∧
    getCorrelationId none = none ∧
    getUserId none = none := by
  refine ⟨rfl, fun c => rfl, fun c => ⟨rfl, rfl⟩, rfl, rfl⟩

/-- C10: `parseUserQuery` sends the configured default language when the
`preferredLanguage` argument is falsy (the empty string, or absent), and
sends any non-empty provided language verbatim. -/
theorem c10_language_fallback (cfg : XavenAiEngineConfig) (freshUuid : String)
    (ambientCtx : Option XavenContextData) (userQuery : String) :
    (mkAiParsePayload cfg freshUuid ambientCtx userQuery (some "")).language =
        cfg.defaultLanguage ∧
    (mkAiParsePayload cfg freshUuid ambientCtx userQuery none).language =
        cfg.defaultLanguage ∧
    (∀ l : String, l ≠ "" →
      (mkAiParsePayload cfg freshUuid ambientCtx userQuery (some l)).language = l) := by
  refine ⟨rfl, rfl, fun l hl => ?_⟩
  simp [mkAiParsePayload, jsOrDefault, hl]

/-- C10 witness: with the default config, an empty preferred language sends
`"en"` and an explicit `"es"` is sent verbatim. -/
theorem c10_language_fallback_witness :
    (mkAiParsePayload ⟨"https://api.xaven.com/ai-parse", 5000, "en", 2⟩ "u" none
        "Need a laptop under 1500" (some "")).language = "en" ∧
    (mkAiParsePayload ⟨"https://api.xaven.com/ai-parse", 5000, "en", 2⟩ "u" none
        "Need a laptop under 1500" (some "es")).language = "es" :=
  ⟨(c10_language_fallback ⟨"https://api.xaven.com/ai-parse", 5000, "en", 2⟩ "u" none
      "Need a laptop under 1500").1,
   (c10_language_fallback ⟨"https://api.xaven.com/ai-parse", 5000, "en", 2⟩ "u" none
      "Need a laptop under 1500").2.2 "es" (by decide)⟩

/-- C5 counterexample: with an active context whose correlation id is
`"ctx-123"`, `parseUserQuery` stamps the freshly generated uuid — not the
context's id — into the payload, so the claimed equality fails. -/
theorem c5_counterexample :
    ¬ ((mkAiParsePayload ⟨"https://api.xaven.com/ai-parse", 5000, "en", 2⟩
          "9b2f8a44-5c1d-4e6f-8a2b-3c4d5e6f7a80"
          (some ⟨"ctx-123", none⟩) "q" none).correlationId = "ctx-123") := by
  decide

/-- C5 amended: both domain clients always stamp the freshly generated
`uuidv4()` value as the payload's correlation id, regardless of the active
Context Store value — the store is never consulted (the payload is
independent of the ambient context). -/
theorem c5_fresh_uuid_always (cfgA : XavenAiEngineConfig)
    (cfgP : XavenPurchaseOptimizerConfig) (freshUuid : String)
    (ctx ctx' : Option XavenContextData) (userQuery : String)
    (preferredLanguage : Option String) (aiParsed : XavenAiParsedResult)
    (userId : Option String) :
    (mkAiParsePayload cfgA freshUuid ctx userQuery preferredLanguage).correlationId =
        freshUuid ∧
    mkAiParsePayload cfgA freshUuid ctx userQuery preferredLanguage =
        mkAiParsePayload cfgA freshUuid ctx' userQuery preferredLanguage ∧
    (mkOptimizePayload cfgP freshUuid ctx aiParsed userId).correlationId =
        freshUuid ∧
    mkOptimizePayload cfgP freshUuid ctx aiParsed userId =
        mkOptimizePayload cfgP freshUuid ctx' aiParsed userId := by
  exact ⟨rfl, rfl, rfl, rfl⟩

/-- A string has positive length iff it is non-empty. -/
theorem string_length_pos_iff (s : String) : 0 < s.length ↔ s ≠ "" := by
  constructor
  · intro h he
    rw [he] at h
    exact absurd h (by decide)
  · intro h
    cases s with
    | mk data =>
      cases data with
      | nil => exact absurd rfl h
      | cons c cs => simp [String.length]

/-- C7: a string `x-correlation-id` header, non-blank after trimming, is used
exactly as its trimmed value; otherwise (absent, non-string, empty or
whitespace-only) the seeded correlation id is the freshly generated
identifier, which conforms to UUID v4 format (the hypothesis `hfresh` is
Node's documented guarantee for `crypto.randomUUID()`). -/
theorem c7_seeding_policy (header : Option HeaderValue) (freshUuid : String)
    (hfresh : isUuidV4 freshUuid = true) :
    (∀ s, header = some (HeaderValue.str s) → jsTrim s ≠ "" →
      seedCorrelationId header freshUuid = jsTrim s) ∧
    ((∀ s, header = some (HeaderValue.str s) → jsTrim s = "") →
      seedCorrelationId header freshUuid = freshUuid ∧
      isUuidV4 (seedCorrelationId header freshUuid) = true) := by
  constructor
  · intro s hs hne
    subst hs
    simp only [seedCorrelationId]
    rw [if_pos ((string_length_pos_iff (jsTrim s)).mpr hne)]
  · intro hblank
    match header with
    | none => exact ⟨rfl, hfresh⟩
    | some (HeaderValue.strs l) => exact ⟨rfl, hfresh⟩
    | some (HeaderValue.str s) =>
      have hb : jsTrim s = "" := hblank s rfl
      simp only [seedCorrelationId, hb]
      constructor
      · rfl
      · exact hfresh

/-- C7 witness: a padded header is stored trimmed; with no header the seeded
id is the generated value and matches UUID v4 format. -/
theorem c7_seeding_policy_witness :
    seedCorrelationId (some (HeaderValue.str "  trimmed-correlation-id  "))
        "9b2f8a44-5c1d-4e6f-8a2b-3c4d5e6f7a80" =
      "trimmed-correlation-id" ∧
    seedCorrelationId none "9b2f8a44-5c1d-4e6f-8a2b-3c4d5e6f7a80" =
        "9b2f8a44-5c1d-4e6f-8a2b-3c4d5e6f7a80" ∧
    isUuidV4 (seedCorrelationId none "9b2f8a44-5c1d-4e6f-8a2b-3c4d5e6f7a80") = true :=
  ⟨(c7_seeding_policy (some (HeaderValue.str "  trimmed-correlation-id  "))
      "9b2f8a44-5c1d-4e6f-8a2b-3c4d5e6f7a80" (by decide)).1
      "  trimmed-correlation-id  " rfl (by decide),
   (c7_seeding_policy none "9b2f8a44-5c1d-4e6f-8a2b-3c4d5e6f7a80" (by decide)).2
      (fun s hs => by cases hs)⟩

/-- Whether one `fetchWithCache` call invokes the loader depends only on the
cache state and the key, not on the loader's outcome. -/
theorem fetch_loaderInvoked_eq_cacheMiss (st : CacheState) (now ttl : Nat)
    (url : String) (L : Except String JsValue) :
    (fetchWithCache st now ttl url L).loaderInvoked = cacheMiss st now url := by
  unfold fetchWithCache cacheMiss
  cases h : cacheGet st now url with
  | none => cases L <;> simp [fetchMissPath]
  | some v => cases hv : truthy v <;> cases L <;> simp [fetchMissPath, hv]

/-- Lazy expiry is monotone: an entry live at a later instant was live at any
earlier one, with the same value. -/
theorem cacheGet_mono (st : CacheState) (now now2 : Nat) (k : String)
    (v : JsValue) (hle : now ≤ now2) (h : cacheGet st now2 k = some v) :
    cacheGet st now k = some v := by
  unfold cacheGet at h ⊢
  cases hf : st.entries.find? (fun e => e.1 = k) with
  | none => rw [hf] at h; exact absurd h (by simp)
  | some e =>
    simp only [hf] at h
    dsimp only
    by_cases h2 : now2 < e.2.2
    · rw [if_pos h2] at h
      rw [if_pos (Nat.lt_of_le_of_lt hle h2)]
      exact h
    · rw [if_neg h2] at h
      exact absurd h (by simp)

/-- A miss is stable under unchanged cache state as time advances. -/
theorem cacheMiss_mono (st : CacheState) (now now2 : Nat) (k : String)
    (hle : now ≤ now2) (h : cacheMiss st now k = true) :
    cacheMiss st now2 k = true := by
  unfold cacheMiss at h ⊢
  cases h2 : cacheGet st now2 k with
  | none => rfl
  | some v =>
    have := cacheGet_mono st now now2 k v hle h2
    rw [this] at h
    exact h

/-- Reading `cache.get` immediately after `cache.set` of the same key returns the
written value while the TTL has not elapsed, and `undefined` afterwards. -/
theorem cacheGet_cacheSet_self (st : CacheState) (now ttl now2 : Nat)
    (k : String) (v : JsValue) :
    cacheGet (cacheSet st now ttl k v) now2 k =
      if now2 < now + ttl then some v else none := by
  unfold cacheGet cacheSet
  simp

/-- The hit path: a live entry whose value is truthy is returned as-is, with
no loader call and no gate slot. -/
theorem fetchWithCache_hit (st : CacheState) (now ttl : Nat) (url : String)
    (v : JsValue) (L : Except String JsValue)
    (hget : cacheGet st now url = some v) (htr : truthy v = true) :
    fetchWithCache st now ttl url L =
      { result := Except.ok v, state := st
        loaderInvoked := false, gateUsed := false } := by
  unfold fetchWithCache
  rw [hget]
  dsimp only
  rw [if_pos htr]

/-- A call that misses (no entry, expired, or falsy cached value) is exactly
the miss path. -/
theorem fetchWithCache_miss (st : CacheState) (now ttl : Nat) (url : String)
    (L : Except String JsValue) (hmiss : cacheMiss st now url = true) :
    fetchWithCache st now ttl url L = fetchMissPath st now ttl url L := by
  unfold cacheMiss at hmiss
  unfold fetchWithCache
  cases h : cacheGet st now url with
  | none => rfl
  | some w =>
    rw [h] at hmiss
    dsimp only at hmiss ⊢
    simp only [Bool.not_eq_true'] at hmiss
    rw [if_neg (by simp [hmiss])]

/-- C3 counterexample to the claim as stated: a successful load of a falsy
value (`null`, as returned for a missing post) produces a live cache entry,
yet the very next lookup for the same key invokes the loader again — because
`if (cached)` is a truthiness test, not a presence test. -/
theorem c3_counterexample :
    cacheGet (fetchWithCache { entries := [] } 0 10 "k"
        (Except.ok JsValue.vNull)).state 0 "k" = some JsValue.vNull ∧
    (fetchWithCache (fetchWithCache { entries := [] } 0 10 "k"
        (Except.ok JsValue.vNull)).state 0 10 "k"
        (Except.ok (JsValue.vStr "x"))).loaderInvoked = true := by
  decide

/-- C3 amended: for every key with a live cache entry holding a truthy value,
`fetchWithCache` returns the entry's value without invoking the loader and
without touching the concurrency gate; starting from a state where the key
misses, a successful load of a truthy value is cached, so a second call
before the TTL elapses returns it without invoking the loader, and a call at
or after expiry invokes the loader again. -/
theorem c3_cache_aside :
    (∀ (st : CacheState) (now ttl : Nat) (url : String) (v : JsValue)
        (L : Except String JsValue),
      cacheGet st now url = some v → truthy v = true →
      fetchWithCache st now ttl url L =
        { result := Except.ok v, state := st
          loaderInvoked := false, gateUsed := false }) ∧
    (∀ (st : CacheState) (now ttl : Nat) (url : String) (v : JsValue)
        (L2 L3 : Except String JsValue),
      cacheMiss st now url = true → truthy v = true →
      (fetchWithCache st now ttl url (Except.ok v)).loaderInvoked = true ∧
      (∀ now2, now ≤ now2 → now2 < now + ttl →
        fetchWithCache (fetchWithCache st now ttl url (Except.ok v)).state
            now2 ttl url L2 =
          { result := Except.ok v
            state := (fetchWithCache st now ttl url (Except.ok v)).state
            loaderInvoked := false, gateUsed := false }) ∧
      (∀ now3, now + ttl ≤ now3 →
        (fetchWithCache (fetchWithCache st now ttl url (Except.ok v)).state
            now3 ttl url L3).loaderInvoked = true)) := by
  constructor
  · intro st now ttl url v L hget htr
    exact fetchWithCache_hit st now ttl url v L hget htr
  · intro st now ttl url v L2 L3 hmiss htr
    have hstate : (fetchWithCache st now ttl url (Except.ok v)).state =
        cacheSet st now ttl url v := by
      rw [fetchWithCache_miss st now ttl url (Except.ok v) hmiss]
      rfl
    refine ⟨?_, ?_, ?_⟩
    · rw [fetch_loaderInvoked_eq_cacheMiss]
      exact hmiss
    · intro now2 hge hlt
      have hget2 : cacheGet (fetchWithCache st now ttl url (Except.ok v)).state
          now2 url = some v := by
        rw [hstate, cacheGet_cacheSet_self, if_pos hlt]
      exact fetchWithCache_hit _ now2 ttl url v L2 hget2 htr
    · intro now3 hge3
      rw [fetch_loaderInvoked_eq_cacheMiss]
      unfold cacheMiss
      rw [hstate, cacheGet_cacheSet_self, if_neg (by omega)]

/-- C3 witness: with TTL 10, a truthy cached post is served from cache
without invoking the loader; from an empty cache the first call loads, a
second call at t=5 is a hit, and a call at t=10 (TTL elapsed) loads again. -/
theorem c3_cache_aside_witness :
    fetchWithCache { entries := [("k", JsValue.vObj "post", 10)] } 0 10 "k"
        (Except.ok (JsValue.vObj "other")) =
      { result := Except.ok (JsValue.vObj "post")
        state := { entries := [("k", JsValue.vObj "post", 10)] }
        loaderInvoked := false, gateUsed := false } ∧
    (fetchWithCache { entries := [] } 0 10 "k"
        (Except.ok (JsValue.vObj "post"))).loaderInvoked = true ∧
    fetchWithCache (fetchWithCache { entries := [] } 0 10 "k"
          (Except.ok (JsValue.vObj "post"))).state 5 10 "k"
        (Except.ok (JsValue.vObj "other")) =
      { result := Except.ok (JsValue.vObj "post")
        state := (fetchWithCache { entries := [] } 0 10 "k"
          (Except.ok (JsValue.vObj "post"))).state
        loaderInvoked := false, gateUsed := false } ∧
    (fetchWithCache (fetchWithCache { entries := [] } 0 10 "k"
          (Except.ok (JsValue.vObj "post"))).state 10 10 "k"
        (Except.ok (JsValue.vObj "post2"))).loaderInvoked = true :=
  ⟨c3_cache_aside.1 { entries := [("k", JsValue.vObj "post", 10)] } 0 10 "k"
      (JsValue.vObj "post") (Except.ok (JsValue.vObj "other")) (by decide) (by decide),
   (c3_cache_aside.2 { entries := [] } 0 10 "k" (JsValue.vObj "post")
      (Except.ok (JsValue.vObj "other")) (Except.ok (JsValue.vObj "post2"))
      (by decide) (by decide)).1,
   (c3_cache_aside.2 { entries := [] } 0 10 "k" (JsValue.vObj "post")
      (Except.ok (JsValue.vObj "other")) (Except.ok (JsValue.vObj "post2"))
      (by decide) (by decide)).2.1 5 (by decide) (by decide),
   (c3_cache_aside.2 { entries := [] } 0 10 "k" (JsValue.vObj "post")
      (Except.ok (JsValue.vObj "other")) (Except.ok (JsValue.vObj "post2"))
      (by decide) (by decide)).2.2 10 (by decide)⟩

/-- C4: when the key misses (so the loader actually runs) and the loader
raises, `fetchWithCache` propagates that error unchanged and leaves the
cache state untouched, so any later lookup for the same key invokes the
loader again. -/
theorem c4_error_not_cached (st : CacheState) (now ttl : Nat) (url : String)
    (e : String) (hmiss : cacheMiss st now url = true) :
    fetchWithCache st now ttl url (Except.error e) =
      { result := Except.error e, state := st
        loaderInvoked := true, gateUsed := true } ∧
    (∀ now2 (L2 : Except String JsValue), now ≤ now2 →
      (fetchWithCache st now2 ttl url L2).loaderInvoked = true) := by
  constructor
  · rw [fetchWithCache_miss st now ttl url (Except.error e) hmiss]
    rfl
  · intro now2 L2 hle
    rw [fetch_loaderInvoked_eq_cacheMiss]
    exact cacheMiss_mono st now now2 url hle hmiss

/-- C4 witness: a failing loader on an empty cache propagates its error,
leaves the cache empty, and the immediate retry invokes the loader again. -/
theorem c4_error_not_cached_witness :
    fetchWithCache { entries := [] } 0 10 "k" (Except.error "boom") =
      { result := Except.error "boom", state := { entries := [] }
        loaderInvoked := true, gateUsed := true } ∧
    (fetchWithCache { entries := [] } 0 10 "k"
        (Except.error "boom2")).loaderInvoked = true :=
  ⟨(c4_error_not_cached { entries := [] } 0 10 "k" "boom" (by decide)).1,
   (c4_error_not_cached { entries := [] } 0 10 "k" "boom" (by decide)).2
      0 (Except.error "boom2") (by decide)⟩

/-- Success case of the retry loop, from an arbitrary loop state: `j` failed
attempts starting at `attempts = a`, then success — the loop returns the
success value having made `j + 1` further calls. -/
theorem retryGo_success {α : Type} (callable : Nat → Except String α) (N : Nat)
    (mk : Nat → Option String → String) (v : α) :
    ∀ (j a : Nat) (last : Option String) (calls : Nat),
      (∀ i, a ≤ i → i < a + j → ∃ e, callable i = Except.error e) →
      callable (a + j) = Except.ok v → a + j < N →
      retryLoopGo callable N mk a last calls = (Except.ok v, calls + j + 1) := by
  intro j
  induction j with
  | zero =>
    intro a last calls hfail hok hlt
    rw [retryLoopGo, dif_pos (by omega : a < N)]
    simp only [Nat.add_zero] at hok
    rw [hok]
  | succ j ih =>
    intro a last calls hfail hok hlt
    have ha : a < N := by omega
    obtain ⟨e, he⟩ := hfail a (Nat.le_refl a) (by omega)
    rw [retryLoopGo, dif_pos ha, he]
    dsimp only
    have hrec := ih (a + 1) (some e) (calls + 1)
      (fun i h1 h2 => hfail i (by omega) (by omega))
      (by rw [show a + 1 + j = a + (j + 1) by omega]; exact hok) (by omega)
    rw [hrec]
    congr 1
    omega

/-- Exhaustion case of the retry loop: with `d = N - a` remaining permitted
attempts, all of which fail, the loop makes exactly `d` more calls and then
raises the terminal error built from the configured ceiling and the last
error. -/
theorem retryGo_allfail {α : Type} (callable : Nat → Except String α) (N : Nat)
    (mk : Nat → Option String → String) (f : Nat → String) :
    ∀ (d a : Nat) (last : Option String) (calls : Nat),
      a + d = N →
      (∀ i, a ≤ i → i < N → callable i = Except.error (f i)) →
      retryLoopGo callable N mk a last calls =
        (Except.error (mk N (if d = 0 then last else some (f (N - 1)))),
         calls + d) := by
  intro d
  induction d with
  | zero =>
    intro a last calls heq hfail
    rw [retryLoopGo, dif_neg (by omega)]
    simp
  | succ d ih =>
    intro a last calls heq hfail
    have ha : a < N := by omega
    have he := hfail a (Nat.le_refl a) ha
    rw [retryLoopGo, dif_pos ha, he]
    dsimp only
    have hrec := ih (a + 1) (some (f a)) (calls + 1) (by omega)
      (fun i h1 h2 => hfail i (by omega) h2)
    rw [hrec]
    by_cases hd : d = 0
    · subst hd
      have haN : a = N - 1 := by omega
      subst haN
      simp
    · simp only [hd, if_neg, Nat.succ_ne_zero, if_false]
      congr 1
      omega

/-- C2: for both retrying callers — `parseUserQuery` and `optimizePurchase` —
with retry ceiling `N = retryCount`: success on attempt `k + 1` after `k`
failures (with `k < N`) returns the success value after exactly `k + 1`
invocations of the callable; failure on every attempt makes exactly `N`
invocations in total (N is a total-call ceiling, not a retries-after-first
count) and then raises the terminal error. -/
theorem c2_retry_attempt_counting :
    (∀ (cfg : XavenAiEngineConfig) (c : Nat → Except String XavenAiParsedResult)
        (k : Nat) (v : XavenAiParsedResult),
      (∀ i, i < k → ∃ e, c i = Except.error e) → c k = Except.ok v →
      k < cfg.retryCount →
      parseUserQueryRun cfg c = (Except.ok v, k + 1)) ∧
    (∀ (cfg : XavenAiEngineConfig) (c : Nat → Except String XavenAiParsedResult)
        (f : Nat → String),
      1 ≤ cfg.retryCount →
      (∀ i, i < cfg.retryCount → c i = Except.error (f i)) →
      parseUserQueryRun cfg c =
        (Except.error (aiTerminalMsg cfg.retryCount
            (some (f (cfg.retryCount - 1)))), cfg.retryCount)) ∧
    (∀ (cfg : XavenPurchaseOptimizerConfig)
        (c : Nat → Except String XavenOptimizationResult)
        (k : Nat) (v : XavenOptimizationResult),
      (∀ i, i < k → ∃ e, c i = Except.error e) → c k = Except.ok v →
      k < cfg.retryCount →
      optimizePurchaseRun cfg c = (Except.ok v, k + 1)) ∧
    (∀ (cfg : XavenPurchaseOptimizerConfig)
        (c : Nat → Except String XavenOptimizationResult)
        (f : Nat → String),
      1 ≤ cfg.retryCount →
      (∀ i, i < cfg.retryCount → c i = Except.error (f i)) →
      optimizePurchaseRun cfg c =
        (Except.error (optTerminalMsg cfg.retryCount
            (some (f (cfg.retryCount - 1)))), cfg.retryCount)) := by
  refine ⟨?_, ?_, ?_, ?_⟩
  · intro cfg c k v hfail hok hlt
    have := retryGo_success c cfg.retryCount aiTerminalMsg v k 0 none 0
      (fun i h0 hik => hfail i (by omega)) (by simpa using hok) (by omega)
    simpa [parseUserQueryRun] using this
  · intro cfg c f hN hfail
    have := retryGo_allfail c cfg.retryCount aiTerminalMsg f cfg.retryCount 0
      none 0 (by omega) (fun i h0 hik => hfail i hik)
    rw [if_neg (by omega)] at this
    simpa [parseUserQueryRun] using this
  · intro cfg c k v hfail hok hlt
    have := retryGo_success c cfg.retryCount optTerminalMsg v k 0 none 0
      (fun i h0 hik => hfail i (by omega)) (by simpa using hok) (by omega)
    simpa [optimizePurchaseRun] using this
  · intro cfg c f hN hfail
    have := retryGo_allfail c cfg.retryCount optTerminalMsg f cfg.retryCount 0
      none 0 (by omega) (fun i h0 hik => hfail i hik)
    rw [if_neg (by omega)] at this
    simpa [optimizePurchaseRun] using this

/-- C2 witness: with `retryCount = 3`, one failure then a success returns the
value after exactly 2 calls; with `retryCount = 2` and a callable that always
fails, exactly 2 calls are made and the terminal error is raised. -/
theorem c2_retry_attempt_counting_witness :
    parseUserQueryRun ⟨"https://api.xaven.com/ai-parse", 5000, "en", 3⟩
        (fun i => if i = 0 then Except.error "Network error"
          else Except.ok ⟨"tablet", some "Samsung", some 800, some "standard"⟩) =
      (Except.ok ⟨"tablet", some "Samsung", some 800, some "standard"⟩, 2) ∧
    optimizePurchaseRun ⟨"https://api.xaven.com/purchase-optimize", 7000,
          none, false, 2⟩
        (fun i => Except.error "Service unavailable") =
      (Except.error (optTerminalMsg 2 (some "Service unavailable")), 2) :=
  ⟨c2_retry_attempt_counting.1 ⟨"https://api.xaven.com/ai-parse", 5000, "en", 3⟩
      (fun i => if i = 0 then Except.error "Network error"
        else Except.ok ⟨"tablet", some "Samsung", some 800, some "standard"⟩)
      1 ⟨"tablet", some "Samsung", some 800, some "standard"⟩
      (fun i hi => ⟨"Network error", by interval_cases i; rfl⟩)
      rfl (by decide),
   c2_retry_attempt_counting.2.2.2
      ⟨"https://api.xaven.com/purchase-optimize", 7000, none, false, 2⟩
      (fun i => Except.error "Service unavailable")
      (fun i => "Service unavailable") (by decide) (fun i hi => rfl)⟩

/-- The AI engine's terminal message contains the attempt count and the last
error's message. -/
theorem aiTerminalMsg_contains (n : Nat) (m : String) :
    strContains (aiTerminalMsg n (some m)) (toString n) ∧
    strContains (aiTerminalMsg n (some m)) m := by
  constructor
  · exact ⟨"[XavenAiEngine] parseUserQuery failed after ".data,
      (" attempts. Last error: " ++ lastErrorMessage (some m)).data,
      by simp [aiTerminalMsg, String.data_append]⟩
  · exact ⟨("[XavenAiEngine] parseUserQuery failed after " ++ toString n ++
        " attempts. Last error: ").data, [],
      by simp [aiTerminalMsg, lastErrorMessage, String.data_append]⟩

/-- The purchase optimizer's terminal message contains the attempt count and
the last error's message. -/
theorem optTerminalMsg_contains (n : Nat) (m : String) :
    strContains (optTerminalMsg n (some m)) (toString n) ∧
    strContains (optTerminalMsg n (some m)) m := by
  constructor
  · exact ⟨"[XavenPurchaseOptimizer] optimizePurchase failed after ".data,
      (" attempts. Last error: " ++ lastErrorMessage (some m)).data,
      by simp [optTerminalMsg, String.data_append]⟩
  · exact ⟨("[XavenPurchaseOptimizer] optimizePurchase failed after " ++
        toString n ++ " attempts. Last error: ").data, [],
      by simp [optTerminalMsg, lastErrorMessage, String.data_append]⟩

/-- C6: when either retrying caller exhausts its attempts, the terminal error
it raises has a message containing the number of attempts made (the
configured `retryCount`) and the last underlying error's message. -/
theorem c6_terminal_error_message :
    (∀ (cfg : XavenAiEngineConfig) (c : Nat → Except String XavenAiParsedResult)
        (f : Nat → String),
      1 ≤ cfg.retryCount →
      (∀ i, i < cfg.retryCount → c i = Except.error (f i)) →
      (parseUserQueryRun cfg c).1 =
          Except.error (aiTerminalMsg cfg.retryCount
            (some (f (cfg.retryCount - 1)))) ∧
      strContains (aiTerminalMsg cfg.retryCount (some (f (cfg.retryCount - 1))))
          (toString cfg.retryCount) ∧
      strContains (aiTerminalMsg cfg.retryCount (some (f (cfg.retryCount - 1))))
          (f (cfg.retryCount - 1))) ∧
    (∀ (cfg : XavenPurchaseOptimizerConfig)
        (c : Nat → Except String XavenOptimizationResult) (f : Nat → String),
      1 ≤ cfg.retryCount →
      (∀ i, i < cfg.retryCount → c i = Except.error (f i)) →
      (optimizePurchaseRun cfg c).1 =
          Except.error (optTerminalMsg cfg.retryCount
            (some (f (cfg.retryCount - 1)))) ∧
      strContains (optTerminalMsg cfg.retryCount (some (f (cfg.retryCount - 1))))
          (toString cfg.retryCount) ∧
      strContains (optTerminalMsg cfg.retryCount (some (f (cfg.retryCount - 1))))
          (f (cfg.retryCount - 1))) := by
  constructor
  · intro cfg c f hN hfail
    have hrun := retryGo_allfail c cfg.retryCount aiTerminalMsg f
      cfg.retryCount 0 none 0 (by omega) (fun i h0 hik => hfail i hik)
    rw [if_neg (by omega)] at hrun
    have hc := aiTerminalMsg_contains cfg.retryCount (f (cfg.retryCount - 1))
    exact ⟨by rw [parseUserQueryRun, hrun], hc.1, hc.2⟩
  · intro cfg c f hN hfail
    have hrun := retryGo_allfail c cfg.retryCount optTerminalMsg f
      cfg.retryCount 0 none 0 (by omega) (fun i h0 hik => hfail i hik)
    rw [if_neg (by omega)] at hrun
    have hc := optTerminalMsg_contains cfg.retryCount (f (cfg.retryCount - 1))
    exact ⟨by rw [optimizePurchaseRun, hrun], hc.1, hc.2⟩

/-- C6 witness: with `retryCount = 2` and every attempt failing with
`"Service unavailable"`, the raised terminal message contains `"2"` and
`"Service unavailable"`. -/
theorem c6_terminal_error_message_witness :
    (parseUserQueryRun ⟨"https://api.xaven.com/ai-parse", 5000, "en", 2⟩
        (fun i => Except.error "Service unavailable")).1 =
      Except.error (aiTerminalMsg 2 (some "Service unavailable")) ∧
    strContains (aiTerminalMsg 2 (some "Service unavailable")) (toString 2) ∧
    strContains (aiTerminalMsg 2 (some "Service unavailable"))
      "Service unavailable" :=
  c6_terminal_error_message.1 ⟨"https://api.xaven.com/ai-parse", 5000, "en", 2⟩
    (fun i => Except.error "Service unavailable")
    (fun i => "Service unavailable") (by decide) (fun i hi => rfl)

/-- Gate transitions never change the configured limit. -/
theorem gateStep_limit (g : GateState) (e : GateEvent) :
    (gateStep g e).limit = g.limit := by
  cases e with
  | submit t => by_cases h : g.running.length < g.limit <;> simp [gateStep, h]
  | finish t =>
    by_cases hmem : t ∈ g.running
    · cases hq : g.queue <;> simp [gateStep, hmem, hq]
    · simp [gateStep, hmem]

/-- One gate transition preserves the safety invariant. -/
theorem gateStep_inv (g : GateState) (e : GateEvent) (hinv : GateInv g) :
    GateInv (gateStep g e) := by
  obtain ⟨h1, h2⟩ := hinv
  cases e with
  | submit t =>
    by_cases h : g.running.length < g.limit
    · constructor
      · simp only [gateStep, if_pos h, List.length_append, List.length_cons,
          List.length_nil]
        omega
      · simpa [gateStep, if_pos h] using h2
    · constructor
      · simpa [gateStep, if_neg h] using h1
      · simp only [gateStep, if_neg h]
        rw [← h2]
        simp [List.append_assoc]
  | finish t =>
    by_cases hmem : t ∈ g.running
    · cases hq : g.queue with
      | nil =>
        constructor
        · have hsub := List.Sublist.length_le (List.erase_sublist t g.running)
          have herase := List.length_erase_of_mem hmem
          simp [gateStep, hmem, hq]
          omega
        · rw [hq] at h2
          simp only [List.append_nil] at h2
          simp [gateStep, hmem, hq, h2]
      | cons q rest =>
        constructor
        · have hpos : 0 < g.running.length :=
            List.length_pos.mpr (List.ne_nil_of_mem hmem)
          have herase := List.length_erase_of_mem hmem
          simp [gateStep, hmem, hq]
          omega
        · rw [hq] at h2
          simpa [gateStep, hmem, hq] using h2
    · simp [gateStep, hmem]
      exact ⟨h1, h2⟩

/-- The safety invariant holds along any event sequence. -/
theorem gateRun_inv (evs : List GateEvent) (g : GateState) (hinv : GateInv g) :
    GateInv (gateRun g evs) := by
  induction evs generalizing g with
  | nil => exact hinv
  | cons e rest ih => exact ih (gateStep g e) (gateStep_inv g e hinv)

/-- The limit is constant along any event sequence. -/
theorem gateRun_limit (evs : List GateEvent) (g : GateState) :
    (gateRun g evs).limit = g.limit := by
  induction evs generalizing g with
  | nil => rfl
  | cons e rest ih => rw [gateRun, List.foldl_cons, ← gateRun, ih, gateStep_limit]

/-- C9: with the gate configured at `pLimit(3)`: along every event sequence
at most 3 tasks run simultaneously and queued tasks are started in exactly
their arrival order (FIFO — the started-from-queue history followed by the
current queue always equals the enqueue history); in the spec's scenario of
10 submitted tasks each later settling, every task settles exactly once (in
order), and the gate drains: nothing left running or queued. -/
theorem c9_concurrency_gate :
    (∀ evs : List GateEvent,
      (gateRun (gateInit 3) evs).running.length ≤ 3 ∧
      (gateRun (gateInit 3) evs).startedFromQueue ++
          (gateRun (gateInit 3) evs).queue =
        (gateRun (gateInit 3) evs).enqueuedHist) ∧
    ((gateRun (gateInit 3) gateTenEvents).settled =
        [1, 2, 3, 4, 5, 6, 7, 8, 9, 10] ∧
      (gateRun (gateInit 3) gateTenEvents).running = [] ∧
      (gateRun (gateInit 3) gateTenEvents).queue = []) := by
  constructor
  · intro evs
    have h := gateRun_inv evs (gateInit 3) ⟨by simp [gateInit], by simp [gateInit]⟩
    have hl := gateRun_limit evs (gateInit 3)
    refine ⟨?_, h.2⟩
    have h1 := h.1
    rw [hl] at h1
    exact h1
  · exact ⟨by decide, by decide, by decide⟩

/-- One event-loop step preserves store integrity: scheduled callbacks
inherit exactly the scheduler's captured store, and reads log exactly the
reader's own store. -/
theorem stepAt_inv (ctxOf : Nat → Option XavenContextData) (i : Nat)
    (s : LoopState) (hinv : CtxInv ctxOf s) : CtxInv ctxOf (stepAt i s) := by
  obtain ⟨htasks, hobs⟩ := hinv
  unfold stepAt
  cases hget : s.tasks.get? i with
  | none => exact ⟨htasks, hobs⟩
  | some t =>
    have htmem : t ∈ s.tasks := List.get?_mem hget
    have hts : t.store = ctxOf t.owner := htasks t htmem
    dsimp only
    cases hp : t.prog with
    | done =>
      refine ⟨?_, hobs⟩
      intro x hx
      exact htasks x (List.mem_of_mem_eraseIdx hx)
    | readCtx k =>
      refine ⟨?_, ?_⟩
      · intro x hx
        rcases List.mem_or_eq_of_mem_set hx with h | rfl
        · exact htasks x h
        · exact hts
      · intro p hp2
        rcases List.mem_append.mp hp2 with h | h
        · exact hobs p h
        · simp only [List.mem_singleton] at h
          subst h
          exact hts
    | schedule cb rest =>
      refine ⟨?_, hobs⟩
      intro x hx
      rcases List.mem_append.mp hx with h | h
      · rcases List.mem_or_eq_of_mem_set h with h2 | rfl
        · exact htasks x h2
        · exact hts
      · simp only [List.mem_singleton] at h
        subst h
        exact hts

/-- Store integrity is preserved along any interleaving. -/
theorem runSched_inv (ctxOf : Nat → Option XavenContextData)
    (sched : List Nat) (s : LoopState) (hinv : CtxInv ctxOf s) :
    CtxInv ctxOf (runSched sched s) := by
  induction sched generalizing s with
  | nil => exact hinv
  | cons i rest ih => exact ih (stepAt i s) (stepAt_inv ctxOf i s hinv)

/-- C1: if every request's root task is seeded with its own context (as the
middleware does via `xavenContextStore.run`), then under every interleaving
of concurrently executing requests, every `getStore()` observation made by
code belonging to request `r` — including from timers and deferred callbacks
scheduled during `r` — yields exactly `r`'s own seeded context, never a
sibling request's. -/
theorem c1_context_isolation (sched : List Nat)
    (ctxOf : Nat → Option XavenContextData) (tasks0 : List AsyncTask)
    (hseed : ∀ t ∈ tasks0, t.store = ctxOf t.owner) :
    ∀ p ∈ (runSched sched { tasks := tasks0, observations := [] }).observations,
      p.2 = ctxOf p.1 := by
  have h := runSched_inv ctxOf sched { tasks := tasks0, observations := [] }
    ⟨hseed, by simp⟩
  exact h.2

/-- C1 witness: two concurrent requests, request 1 scheduling a deferred read
and request 2 reading directly; under the interleaving `[0, 1, 2]` request
1's deferred callback observes request 1's context. -/
theorem c1_context_isolation_witness :
    (some (⟨"cid-1", some "u1"⟩ : XavenContextData) : Option XavenContextData) =
      (fun r => if r = 1 then
          some (⟨"cid-1", some "u1"⟩ : XavenContextData)
        else some ⟨"cid-2", some "u2"⟩) 1 :=
  c1_context_isolation [0, 1, 2]
    (fun r => if r = 1 then
        some (⟨"cid-1", some "u1"⟩ : XavenContextData)
      else some ⟨"cid-2", some "u2"⟩)
    [{ owner := 1, store := some ⟨"cid-1", some "u1"⟩
       prog := AsyncProg.schedule (AsyncProg.readCtx fun _ => AsyncProg.done)
         AsyncProg.done },
     { owner := 2, store := some ⟨"cid-2", some "u2"⟩
       prog := AsyncProg.readCtx fun _ => AsyncProg.done }]
    (by
      intro t ht
      simp only [List.mem_cons, List.not_mem_nil, or_false] at ht
      rcases ht with rfl | rfl
      · rfl
      · rfl)
    (1, some ⟨"cid-1", some "u1"⟩) (by decide)
